import Mathlib

/-!
Shallow embedding of `sphinxcontrib/xbr/extract.py` (the outline-extraction
engine of sphinxcontrib-xbr): the `XBRIDLNode` class, the indentation-tree
builder `_parse_tree`, the per-block entry point `_extract_from_block`, and
the directory walker/aggregator `_extract`.

Modelling conventions:
  - Python object references become indices into an arena (a `List XBRIDLNode`);
    a node's `parent` field is the index of its parent node, and the root is
    its own parent (index pointing at itself), mirroring `parent or self`.
  - Python exceptions become `Except String` with the exception message as the
    payload.  Both an explicit `raise ValueError(msg)` and a `ValueError`
    raised while evaluating the message expression itself (as happens with a
    malformed format string) are carried the same way, since in both cases a
    `ValueError` with that message propagates out of the function.
  - The Python `str.format` calls are modelled by `pyFormat` below, which
    reproduces CPython's field-numbering semantics (automatic "\x7b\x7d" fields,
    manual "\x7b0\x7d" fields, and the error on mixing the two) for the format
    strings appearing in this file (no named fields, no format specs, no brace
    escapes are used by the source).
  - File I/O (`os.walk`, `open`, `read`, `contents.splitlines()`) is abstracted:
    `_extract` receives the walk result as a list of (path, lines) pairs where
    the lines are the result of `str.splitlines()` on the file contents (hence
    newline-free).  The `'\n'.join(...)` / `.splitlines()` round trip that the
    source performs on each block is modelled exactly by `pyJoinSplit`.
  - `print` calls in the source are side-effect-only and are omitted.
-/

/-- Python whitespace characters as recognized by `str.strip` / `str.isspace`
(space, tab, newline, vertical tab, form feed, carriage return). -/
def pyIsSpace (c : Char) : Bool :=
  c = ' ' || c = '\t' || c = '\n' || c = '\x0b' || c = '\x0c' || c = '\r'

/-- Python `line.strip() != ""`: true iff the string has some non-whitespace
character. -/
def pyNonBlank (s : String) : Bool :=
  s.toList.any (fun c => !(pyIsSpace c))

/-- Python `len(line) - len(line.lstrip(' '))`: the number of leading space
characters (only `' '`, exactly as `lstrip(' ')` strips). -/
def leadingSpaces (s : String) : Nat :=
  (s.toList.takeWhile (fun c => c = ' ')).length

/-- Python `s.startswith(pre)`. -/
def pyStartswith (s pre : String) : Bool :=
  pre.toList.isPrefixOf s.toList

/-- Python `s.endswith(suf)`. -/
def pyEndswith (s suf : String) : Bool :=
  suf.toList.isSuffixOf s.toList

/-- Python `'\n'.join(ls).splitlines()` for newline-free elements `ls`:
`splitlines` does not emit a final empty part after a trailing newline, so the
round trip drops one trailing empty string (and maps `[""]` to `[]`). -/
def pyJoinSplit (ls : List String) : List String :=
  if ls.getLastD "x" = "" then ls.dropLast else ls

/-- Numeric value of a digit string (used for manual format fields like "\x7b0\x7d"). -/
def digitsToNat (cs : List Char) : Nat :=
  cs.foldl (fun acc c => acc * 10 + (c.toNat - '0'.toNat)) 0

/-- Field-numbering mode of a CPython `str.format` call: no field seen yet,
automatic ("\x7b\x7d") numbering, or manual ("\x7b0\x7d") numbering. -/
inductive FmtMode
  | unset
  | auto
  | manual
deriving Repr, DecidableEq

/-- Modelled from CPython `str.format` semantics for the format strings used in
`extract.py` (positional fields only, no brace escapes, no format specs).
The second argument collects the content of a currently open field, or is
`none` between fields.  Mixing manual and automatic field numbering raises
`ValueError` with the corresponding CPython message. -/
def pyFormatAux : List Char → Option (List Char) → List String → Nat → FmtMode →
    Except String String
  | [], none, _, _, _ => .ok ""
  | [], some _, _, _, _ =>
      .error "Single open brace encountered in format string"
  | c :: rest, none, args, ai, mode =>
      if c = '\x7b' then
        pyFormatAux rest (some []) args ai mode
      else if c = '\x7d' then
        .error "Single close brace encountered in format string"
      else
        (pyFormatAux rest none args ai mode).map (fun t => c.toString ++ t)
  | c :: rest, some acc, args, ai, mode =>
      if c = '\x7d' then
        if acc = [] then
          match mode with
          | .manual =>
              .error "cannot switch from manual field specification to automatic field numbering"
          | _ =>
              if ai < args.length then
                (pyFormatAux rest none args (ai + 1) .auto).map
                  (fun t => args.getD ai "" ++ t)
              else
                .error "Replacement index out of range"
        else if acc.all Char.isDigit then
          match mode with
          | .auto =>
              .error "cannot switch from automatic field numbering to manual field specification"
          | _ =>
              if digitsToNat acc < args.length then
                (pyFormatAux rest none args ai .manual).map
                  (fun t => args.getD (digitsToNat acc) "" ++ t)
              else
                .error "Replacement index out of range"
        else
          .error "unsupported replacement field"
      else
        pyFormatAux rest (some (acc ++ [c])) args ai mode

/-- Python `tpl.format(*args)` (arguments already converted to strings, as
`format` does with `str()` for the ints and strings passed in this file). -/
def pyFormat (tpl : String) (args : List String) : Except String String :=
  pyFormatAux tpl.toList none args 0 .unset

/-- The message of the `ValueError` that escapes a `raise ValueError(tpl.format(*args))`
statement: the formatted message when formatting succeeds, and the format
error's own message when `str.format` itself raises (in Python both are
`ValueError`s propagating from the same statement). -/
def fmtValue (tpl : String) (args : List String) : String :=
  match pyFormat tpl args with
  | .ok m => m
  | .error e => e

/-- Format string at extract.py line 119; note it mixes the manual field "\x7b0\x7d"
with the automatic field "\x7b\x7d". -/
def indentMultTpl : String :=
  "Indentation not a multiple of 4 spaces: \"\x7b0\x7d\" [line \x7b\x7d]"

/-- Format string at extract.py line 129. -/
def tooDeepTpl : String :=
  "Indentation too deep: \"\x7b\x7d\" [level=\x7b\x7d, whitespace=\x7b\x7d, line_no=\x7b\x7d]"

/-- Format string at extract.py line 80. -/
def invalidParentTpl : String :=
  "invalid parent level \x7b\x7d for node with level \x7b\x7d"

/-- Format string at extract.py line 191. -/
def invalidNsTpl : String :=
  "invalid namespace declaration: \x7b\x7d"

/-- The `XBRIDLNode` class of extract.py.  `parent` is the arena index of the
parent node object; the root points at its own index.  `children` holds arena
indices in insertion order. -/
structure XBRIDLNode where
  level : Nat
  parent : Nat
  start_line : Nat
  line_no : Nat
  line : Option String
  children : List Nat
deriving Repr, DecidableEq, Inhabited

/-- `XBRIDLNode.__init__`: appends the new node to the arena and returns its
index.  `if parent and parent.level != level - 1: raise ...` — a non-None
parent whose level is not exactly `level - 1` (as Python ints, hence the `Int`
cast) raises; `self.parent = parent or self` makes a parentless node its own
parent. -/
def XBRIDLNode.init (arena : List XBRIDLNode) (level : Nat) (parent : Option Nat)
    (start_line : Nat) (line_no : Nat) (line : Option String) :
    Except String (List XBRIDLNode × Nat) :=
  match parent with
  | some p =>
      if ((arena.getD p default).level : Int) ≠ (level : Int) - 1 then
        .error (fmtValue invalidParentTpl
          [toString (arena.getD p default).level, toString level])
      else
        .ok (arena ++ [⟨level, p, start_line, line_no, line, []⟩], arena.length)
  | none =>
      .ok (arena ++ [⟨level, arena.length, start_line, line_no, line, []⟩], arena.length)

/-- Python `stack[-1].children.append(node)` applied to the node record. -/
def appendChild (idx : Nat) (n : XBRIDLNode) : XBRIDLNode :=
  ⟨n.level, n.parent, n.start_line, n.line_no, n.line, n.children ++ [idx]⟩

/-- In-place update of one arena slot (out-of-range index leaves the arena
unchanged; all uses are in range). -/
def modifyAt : List XBRIDLNode → Nat → (XBRIDLNode → XBRIDLNode) → List XBRIDLNode
  | [], _, _ => []
  | x :: xs, 0, f => f x :: xs
  | x :: xs, n + 1, f => x :: modifyAt xs n f

/-- The loop state of `_parse_tree`: the arena of node objects, the `nodes`
result list, the `stack` of open nodes (head of the list is Python's
`stack[-1]`), the local `start_line` variable, and the `line_no` counter. -/
structure ParseState where
  arena : List XBRIDLNode
  nodes : List Nat
  stack : List Nat
  start_line : Nat
  line_no : Nat
deriving Repr, DecidableEq, Inhabited

/-- Python `while level + 1 < stack[-1].level: stack.pop()`. -/
def popStack (arena : List XBRIDLNode) (level : Nat) : List Nat → List Nat
  | [] => []
  | t :: rest =>
      if level + 1 < (arena.getD t default).level then popStack arena level rest
      else t :: rest

/-- One iteration of the `for line in lines` loop of `_parse_tree`
(extract.py lines 108-181). -/
def parseLine (st : ParseState) (line : String) : Except String ParseState :=
  let line_no := st.line_no + 1
  let ls := leadingSpaces line
  if pyNonBlank line then
    if ls % 4 ≠ 0 then
      .error (fmtValue indentMultTpl [line, toString line_no])
    else
      let level := ls / 4 + 1
      match st.stack with
      | [] => .error "IndexError: list index out of range"
      | top :: rest =>
        let topNode := st.arena.getD top default
        if level > topNode.level + 1 then
          .error (fmtValue tooDeepTpl
            [line, toString level, toString ls, toString line_no])
        else if level > topNode.level then
          match XBRIDLNode.init st.arena level (some top) topNode.start_line
              line_no (some line) with
          | .error e => .error e
          | .ok (arena1, idx) =>
              .ok ⟨modifyAt arena1 top (appendChild idx), st.nodes ++ [idx],
                   idx :: top :: rest, st.start_line, line_no⟩
        else if level = topNode.level then
          match XBRIDLNode.init st.arena level (some topNode.parent)
              topNode.start_line line_no (some line) with
          | .error e => .error e
          | .ok (arena1, idx) =>
              .ok ⟨modifyAt arena1 top (appendChild idx), st.nodes ++ [idx],
                   top :: rest, st.start_line, line_no⟩
        else
          match popStack st.arena level (top :: rest) with
          | [] => .error "IndexError: list index out of range"
          | top2 :: rest2 =>
            let topNode2 := st.arena.getD top2 default
            match XBRIDLNode.init st.arena topNode2.level (some topNode2.parent)
                st.start_line line_no (some line) with
            | .error e => .error e
            | .ok (arena1, idx) =>
                .ok ⟨arena1, st.nodes ++ [idx], top2 :: rest2, st.start_line,
                     line_no⟩
  else
    .ok ⟨st.arena, st.nodes, st.stack, st.start_line, line_no⟩

/-- `_parse_tree(lines, root)` (extract.py lines 99-182).  The root node sits
at arena index 0; the returned pair is the final arena together with the
`nodes` list of arena indices in creation order. -/
def _parse_tree (lines : List String) (root : XBRIDLNode) :
    Except String (List XBRIDLNode × List Nat) :=
  match lines.foldlM parseLine ⟨[root], [0], [0], root.start_line, 0⟩ with
  | .error e => .error e
  | .ok st => .ok (st.arena, st.nodes)

/-- A root node as created by `XBRIDLNode(start_line=start_line)`: level 0,
its own parent (index 0), `line_no` 0 and `line` None. -/
def rootNodeAt (start_line : Nat) : XBRIDLNode :=
  ⟨0, 0, start_line, 0, none, []⟩

/-- Tail of `PAT_NSP` after the `\s*` prefix: the regex is
`^\s*.. xbr:namespace:: (?P<name>\S.*)$`, where the two leading dots are
regex wildcards (any character but newline), followed by the literal
` xbr:namespace:: `, then a non-whitespace character and arbitrary
non-newline characters to the end of the line. -/
def nspTailMatch : List Char → Bool
  | c1 :: c2 :: rest =>
      c1 ≠ '\n' && c2 ≠ '\n' &&
      (" xbr:namespace:: ".toList.isPrefixOf rest) &&
      (match rest.drop 17 with
       | [] => false
       | c :: cs => !(pyIsSpace c) && cs.all (fun x => x ≠ '\n'))
  | _ => false

/-- `PAT_NSP.match(s)` succeeds (extract.py line 54): some split of `s` into a
whitespace prefix and a tail matching the rest of the pattern.  Lines come
from `splitlines` and contain no newline, so the `$`-before-final-newline
subtlety of the `re` module does not arise. -/
def nspMatches (s : String) : Bool :=
  (List.range (s.length + 1)).any (fun i =>
    (s.toList.take i).all pyIsSpace && nspTailMatch (s.toList.drop i))

/-- `_extract_from_block(block, start_line)` (extract.py lines 185-195), with
the block already split into lines (`block.splitlines()`).  An empty block
would crash on `lines[0]` (IndexError); every caller passes a block whose
first line is the directive line. -/
def _extract_from_block (blockLines : List String) (start_line : Nat) :
    Except String (List XBRIDLNode × List Nat) :=
  match blockLines with
  | [] => .error "IndexError: list index out of range"
  | l0 :: _ =>
    if pyStartswith l0 ".. xbr:namespace::" && !(nspMatches l0) then
      .error (fmtValue invalidNsTpl [l0])
    else
      match XBRIDLNode.init [] 0 none start_line 0 none with
      | .error e => .error e
      | .ok (arena0, rootIdx) =>
          _parse_tree blockLines (arena0.getD rootIdx default)

/-- The body of the inner `while j < len(lines)` loop of `_extract`
(extract.py lines 213-217), recursing over the suffix `lines[j:]` of the
file: the index of the first line at `j` or later that is non-empty and whose
first character is not whitespace. -/
def findEndAux : List String → Nat → Option Nat
  | [], _ => none
  | lj :: rest, j =>
      if lj ≠ "" && !(pyIsSpace (lj.toList.headD 'a')) then some j
      else findEndAux rest (j + 1)

/-- The inner `while j < len(lines)` loop of `_extract`: the found block end,
or `none` when the loop runs off the end of the file (`found_end` stays
False). -/
def findEnd (lines : List String) (j : Nat) : Option Nat :=
  findEndAux (lines.drop j) j

/-- The block captured for a directive line at index `i`: `lines[i:j]` when a
terminating line is found, else `lines[i:]` (extract.py lines 211-221). -/
def blockAt (lines : List String) (i : Nat) : List String :=
  match findEnd lines (i + 1) with
  | some j => (lines.drop i).take (j - i)
  | none => lines.drop i

/-- The body of the `for i in range(len(lines))` loop of `_extract`
(extract.py lines 209-225), with `blocks` the accumulator: a line starting
with `.. xbr:` opens a block, the block text is joined with newlines and
re-split by `_extract_from_block` (`pyJoinSplit`), and
`if block_nodes: blocks.extend(block_nodes)` flattens the nodes of all blocks
into the single per-file list. -/
def scanStep (lines : List String) (blocks : List XBRIDLNode) (i : Nat) :
    Except String (List XBRIDLNode) :=
  if pyStartswith (lines.getD i "") ".. xbr:" then
    match _extract_from_block (pyJoinSplit (blockAt lines i)) i with
    | .error e => .error e
    | .ok (arena, idxs) =>
        let recs := idxs.map (fun k => arena.getD k default)
        .ok (if recs ≠ [] then blocks ++ recs else blocks)
  else
    .ok blocks

/-- The per-file node list computed by `_extract` for one file's lines: the
`for i in range(len(lines))` loop folded over the index range. -/
def scanFileNodes (lines : List String) : Except String (List XBRIDLNode) :=
  (List.range lines.length).foldlM (scanStep lines) []

/-- The `blocks` list `_extract` accumulates for one visited `.rst` file:
the file is scanned only when `filterpaths is None or fn in filterpaths`
(extract.py lines 204-225); a filtered-out file keeps `blocks = []`. -/
def fileBlocks (filterpaths : Option (List String)) (fn : String)
    (flines : List String) : Except String (List XBRIDLNode) :=
  match filterpaths with
  | none => scanFileNodes flines
  | some fps => if fn ∈ fps then scanFileNodes flines else .ok []

/-- `_extract(root, filterpaths)` (extract.py lines 198-229) with the
filesystem walk abstracted: `files` is the list of (path, contents-lines)
pairs that `os.walk` + `open` + `read().splitlines()` would produce, in walk
order.  Only `.rst` files are read; a file not in a supplied `filterpaths`
allow-list contributes an empty block list; files whose block list is empty
are omitted from the resulting (ordered, duplicate-free in practice)
association list `fileblocks`. -/
def _extract (files : List (String × List String))
    (filterpaths : Option (List String)) :
    Except String (List (String × List XBRIDLNode)) :=
  match files with
  | [] => .ok []
  | (fn, flines) :: rest =>
    if pyEndswith fn ".rst" then
      match fileBlocks filterpaths fn flines with
      | .error e => .error e
      | .ok blocks =>
        match _extract rest filterpaths with
        | .error e => .error e
        | .ok fb => .ok (if blocks ≠ [] then (fn, blocks) :: fb else fb)
    else
      match _extract rest filterpaths with
      | .error e => .error e
      | .ok fb => .ok fb

/-- Modelled from the spec: a directive-introducing line per the spec's words
(section 6): optional leading whitespace, a literal marker prefix, a single
space, then a non-empty name extending to end of line.  The marker set is the
one the spec names: `.. xbr:namespace::` and `.. xbr:interface::`. -/
def introducesBlockSpec (line : String) : Bool :=
  [".. xbr:namespace::", ".. xbr:interface::"].any (fun m =>
    let rest := line.toList.dropWhile pyIsSpace
    ((m ++ " ").toList.isPrefixOf rest) && rest.drop (m.length + 1) ≠ [])

/-- Modelled from the spec: one step of collecting the per-block node
collections as the spec describes the per-file value (sections 4.3 and 6) —
each block contributes its node list as one element of the per-file list,
instead of being flattened into it. -/
def perBlockStep (lines : List String) (acc : List (List XBRIDLNode)) (i : Nat) :
    Except String (List (List XBRIDLNode)) :=
  if pyStartswith (lines.getD i "") ".. xbr:" then
    match _extract_from_block (pyJoinSplit (blockAt lines i)) i with
    | .error e => .error e
    | .ok (arena, idxs) =>
        .ok (acc ++ [idxs.map (fun k => arena.getD k default)])
  else
    .ok acc

/-- Modelled from the spec: the per-file value as the spec describes it — the
ordered list of per-block node collections, one entry per block. -/
def perBlockLists (lines : List String) :
    Except String (List (List XBRIDLNode)) :=
  (List.range lines.length).foldlM (perBlockStep lines) []

lemma getD_zero_append (l : List XBRIDLNode) (x d : XBRIDLNode) (h : l ≠ []) :
    (l ++ [x]).getD 0 d = l.getD 0 d := by
  cases l with
  | nil => exact absurd rfl h
  | cons a tl => rfl

lemma length_modifyAt (l : List XBRIDLNode) (i : Nat) (f : XBRIDLNode → XBRIDLNode) :
    (modifyAt l i f).length = l.length := by
  induction l generalizing i with
  | nil => rfl
  | cons a tl ih =>
      cases i with
      | zero => rfl
      | succ n => simpa [modifyAt] using ih n

lemma getD_zero_modify_appendChild (l : List XBRIDLNode) (i j : Nat) (d : XBRIDLNode) :
    ((modifyAt l i (appendChild j)).getD 0 d).level = (l.getD 0 d).level ∧
    ((modifyAt l i (appendChild j)).getD 0 d).line = (l.getD 0 d).line := by
  cases l with
  | nil => exact ⟨rfl, rfl⟩
  | cons a tl => cases i <;> exact ⟨rfl, rfl⟩

/-- Inversion for a successful constructor call with a parent: the arena grows
by exactly the new node and the returned index is the old arena length. -/
lemma init_ok_some {arena : List XBRIDLNode} {level p sl ln : Nat}
    {ol : Option String} {arena1 : List XBRIDLNode} {idx : Nat}
    (h : XBRIDLNode.init arena level (some p) sl ln ol = .ok (arena1, idx)) :
    arena1 = arena ++ [⟨level, p, sl, ln, ol, []⟩] ∧ idx = arena.length := by
  simp only [XBRIDLNode.init] at h
  split at h
  · exact absurd h (by simp)
  · injection h with hp
    injection hp with h1 h2
    exact ⟨h1.symm, h2.symm⟩

lemma modifyAt_append_ne_nil (l : List XBRIDLNode) (x : XBRIDLNode) (i : Nat)
    (f : XBRIDLNode → XBRIDLNode) : modifyAt (l ++ [x]) i f ≠ [] := by
  intro hemp
  have hl := length_modifyAt (l ++ [x]) i f
  rw [hemp] at hl
  simp at hl

/-- One loop iteration of `_parse_tree` that succeeds keeps the arena
non-empty, does not change the level or the raw line of the node at arena
index 0 (the root), and only appends to the `nodes` list. -/
lemma parseLine_ok_inv {st st' : ParseState} {line : String}
    (h : parseLine st line = .ok st') (hne : st.arena ≠ []) :
    st'.arena ≠ [] ∧
    (st'.arena.getD 0 default).level = (st.arena.getD 0 default).level ∧
    (st'.arena.getD 0 default).line = (st.arena.getD 0 default).line ∧
    ∃ t, st'.nodes = st.nodes ++ t := by
  unfold parseLine at h
  by_cases hb : pyNonBlank line = true
  · rw [if_pos hb] at h
    split at h
    · exact absurd h (by simp)
    · split at h
      · exact absurd h (by simp)
      · rename_i top rest heq
        dsimp only at h
        split at h
        · exact absurd h (by simp)
        · split at h
          · -- new-child branch
            split at h
            · exact absurd h (by simp)
            · rename_i arena1 idx hinit
              obtain ⟨ha, hi⟩ := init_ok_some hinit
              subst ha
              injection h with h'
              subst h'
              refine ⟨modifyAt_append_ne_nil _ _ _ _, ?_, ?_, [idx], rfl⟩
              · rw [(getD_zero_modify_appendChild _ _ _ _).1,
                    getD_zero_append _ _ _ hne]
              · rw [(getD_zero_modify_appendChild _ _ _ _).2,
                    getD_zero_append _ _ _ hne]
          · split at h
            · -- sibling branch
              split at h
              · exact absurd h (by simp)
              · rename_i arena1 idx hinit
                obtain ⟨ha, hi⟩ := init_ok_some hinit
                subst ha
                injection h with h'
                subst h'
                refine ⟨modifyAt_append_ne_nil _ _ _ _, ?_, ?_, [idx], rfl⟩
                · rw [(getD_zero_modify_appendChild _ _ _ _).1,
                      getD_zero_append _ _ _ hne]
                · rw [(getD_zero_modify_appendChild _ _ _ _).2,
                      getD_zero_append _ _ _ hne]
            · -- level-decrease branch
              split at h
              · exact absurd h (by simp)
              · split at h
                · exact absurd h (by simp)
                · rename_i arena1 idx hinit
                  obtain ⟨ha, hi⟩ := init_ok_some hinit
                  subst ha
                  injection h with h'
                  subst h'
                  refine ⟨by simp, ?_, ?_, [idx], rfl⟩
                  · rw [getD_zero_append _ _ _ hne]
                  · rw [getD_zero_append _ _ _ hne]
  · rw [if_neg hb] at h
    injection h with h'
    subst h'
    exact ⟨hne, rfl, rfl, [], by simp⟩

/-- The whole `for` loop of `_parse_tree`, when it succeeds, preserves the
root node's level and raw line and only appends to the `nodes` list. -/
lemma foldlM_parse_inv (lines : List String) :
    ∀ (st st' : ParseState), lines.foldlM parseLine st = .ok st' →
      st.arena ≠ [] →
      st'.arena ≠ [] ∧
      (st'.arena.getD 0 default).level = (st.arena.getD 0 default).level ∧
      (st'.arena.getD 0 default).line = (st.arena.getD 0 default).line ∧
      ∃ t, st'.nodes = st.nodes ++ t := by
  induction lines with
  | nil =>
      intro st st' h hne
      injection h with h'
      subst h'
      exact ⟨hne, rfl, rfl, [], by simp⟩
  | cons l ls ih =>
      intro st st' h hne
      cases hp : parseLine st l with
      | error e =>
          have h1 : (parseLine st l >>= fun st1 => ls.foldlM parseLine st1) = .ok st' := h
          rw [hp] at h1
          have hbad : (Except.error e : Except String ParseState) = .ok st' := h1
          exact absurd hbad (by simp)
      | ok st1 =>
          have h1 : (parseLine st l >>= fun st1 => ls.foldlM parseLine st1) = .ok st' := h
          rw [hp] at h1
          have h2 : ls.foldlM parseLine st1 = .ok st' := h1
          obtain ⟨hne1, hl1, hr1, t1, ht1⟩ := parseLine_ok_inv hp hne
          obtain ⟨hne2, hl2, hr2, t2, ht2⟩ := ih st1 st' h2 hne1
          exact ⟨hne2, hl2.trans hl1, hr2.trans hr1,
                 t1 ++ t2, by rw [ht2, ht1, List.append_assoc]⟩

/-- A successful `_extract_from_block` returns a non-empty node list whose
first element is index 0, the implicit root, which keeps level 0 and a None
raw line. -/
lemma extract_block_inv {blockLines : List String} {start_line : Nat}
    {arena : List XBRIDLNode} {idxs : List Nat}
    (h : _extract_from_block blockLines start_line = .ok (arena, idxs)) :
    idxs.head? = some 0 ∧ idxs ≠ [] ∧ arena ≠ [] ∧
    (arena.getD 0 default).level = 0 ∧ (arena.getD 0 default).line = none := by
  unfold _extract_from_block at h
  split at h
  · exact absurd h (by simp)
  · split at h
    · exact absurd h (by simp)
    · split at h
      · rename_i e hbad
        exact absurd hbad (by simp [XBRIDLNode.init])
      · rename_i arena0 rootIdx hinit
        have h1 : arena0 = [⟨0, 0, start_line, 0, none, []⟩] ∧ rootIdx = 0 := by
          simp only [XBRIDLNode.init] at hinit
          injection hinit with hpair
          injection hpair with ha hi
          exact ⟨ha.symm, hi.symm⟩
        obtain ⟨ha0, hi0⟩ := h1
        subst ha0 hi0
        unfold _parse_tree at h
        split at h
        · exact absurd h (by simp)
        · rename_i st hfold
          injection h with hpair
          injection hpair with ha hi
          obtain ⟨hne, hl, hr, t, ht⟩ := foldlM_parse_inv _ _ _ hfold (by simp)
          subst ha hi
          rw [ht]
          refine ⟨rfl, by simp, hne, ?_, ?_⟩
          · rw [hl]; rfl
          · rw [hr]; rfl

/-- A fold of `scanStep` over indices none of which points at a
block-introducing line returns the accumulator unchanged and raises no
error. -/
lemma foldlM_scanStep_no_marker (lines : List String) :
    ∀ (is : List Nat) (blocks : List XBRIDLNode),
      (∀ i ∈ is, pyStartswith (lines.getD i "") ".. xbr:" = false) →
      is.foldlM (scanStep lines) blocks = .ok blocks := by
  intro is
  induction is with
  | nil => intro blocks _; rfl
  | cons i is ih =>
      intro blocks hm
      have h0 : pyStartswith (lines.getD i "") ".. xbr:" = false :=
        hm i (by simp)
      rw [List.foldlM_cons,
          show scanStep lines blocks i = .ok blocks from by
            unfold scanStep; rw [h0]; simp]
      exact ih blocks (fun j hj => hm j (by simp [hj]))

/-- The flattened per-file node list computed by the code is the
concatenation of the spec's per-block node collections: the two index folds
stay related by `List.flatten`. -/
lemma foldlM_scan_perBlock (lines : List String) :
    ∀ (is : List Nat) (accL : List (List XBRIDLNode)),
      is.foldlM (scanStep lines) accL.flatten =
        (is.foldlM (perBlockStep lines) accL).map List.flatten := by
  intro is
  induction is with
  | nil => intro accL; rfl
  | cons i is ih =>
      intro accL
      rw [List.foldlM_cons, List.foldlM_cons]
      by_cases hsw : pyStartswith (lines.getD i "") ".. xbr:" = true
      · cases hE : _extract_from_block (pyJoinSplit (blockAt lines i)) i with
        | error e =>
            rw [show scanStep lines accL.flatten i = .error e from by
                  unfold scanStep; rw [hsw, hE]; rfl,
                show perBlockStep lines accL i = .error e from by
                  unfold perBlockStep; rw [hsw, hE]; rfl]
            rfl
        | ok p =>
            obtain ⟨arena, idxs⟩ := p
            rw [show scanStep lines accL.flatten i =
                  .ok (if idxs.map (fun k => arena.getD k default) ≠ [] then
                         accL.flatten ++ idxs.map (fun k => arena.getD k default)
                       else accL.flatten) from by
                  unfold scanStep; rw [hsw, hE]; rfl,
                show perBlockStep lines accL i =
                  .ok (accL ++ [idxs.map (fun k => arena.getD k default)]) from by
                  unfold perBlockStep; rw [hsw, hE]; rfl]
            have hacc : (if idxs.map (fun k => arena.getD k default) ≠ [] then
                           accL.flatten ++ idxs.map (fun k => arena.getD k default)
                         else accL.flatten) =
                (accL ++ [idxs.map (fun k => arena.getD k default)]).flatten := by
              by_cases hr : idxs.map (fun k => arena.getD k default) = [] <;>
                simp [hr, List.flatten_append, List.flatten]
            show is.foldlM (scanStep lines) _ =
              Except.map List.flatten (is.foldlM (perBlockStep lines) _)
            rw [hacc]
            exact ih (accL ++ [idxs.map (fun k => arena.getD k default)])
      · have h0 : pyStartswith (lines.getD i "") ".. xbr:" = false := by
          simpa using hsw
        rw [show scanStep lines accL.flatten i = .ok accL.flatten from by
              unfold scanStep; rw [h0]; simp,
            show perBlockStep lines accL i = .ok accL from by
              unfold perBlockStep; rw [h0]; simp]
        exact ih accL

lemma getD_append_self (l : List XBRIDLNode) (x d : XBRIDLNode) :
    (l ++ [x]).getD l.length d = x := by
  induction l with
  | nil => rfl
  | cons a tl ih => simp [List.getD_cons_succ, ih]

/-- C7: whenever the computed level of a non-blank, well-indented line exceeds
the level of the current stack top by more than one, the builder raises the
over-deep-indentation ValueError of extract.py lines 127-130, with the line
text, computed level, whitespace width and 1-based line number in the
message. -/
theorem xbr_c7_too_deep (st : ParseState) (line : String) (top : Nat)
    (rest : List Nat)
    (hs : st.stack = top :: rest)
    (hne : pyNonBlank line = true)
    (hmod : leadingSpaces line % 4 = 0)
    (hdeep : (st.arena.getD top default).level + 1 < leadingSpaces line / 4 + 1) :
    parseLine st line = .error (fmtValue tooDeepTpl
      [line, toString (leadingSpaces line / 4 + 1), toString (leadingSpaces line),
       toString (st.line_no + 1)]) := by
  unfold parseLine
  dsimp only
  rw [if_pos hne, if_neg (by simp [hmod]), hs]
  dsimp only
  rw [if_pos hdeep]

/-- Witness for C7, the spec's Scenario B: the line "        x" (8 leading
spaces, computed level 3) as the first content line directly under the
level-1 directive node raises the over-deep error; the same error is what the
whole `_parse_tree` run on the two-line block returns. -/
theorem xbr_c7_too_deep_witness :
    parseLine ⟨[⟨0, 0, 0, 0, none, [1]⟩,
                ⟨1, 0, 0, 1, some ".. xbr:interface:: I", []⟩], [0, 1], [1, 0], 0, 1⟩
        "        x" =
      .error "Indentation too deep: \"        x\" [level=3, whitespace=8, line_no=2]" ∧
    _parse_tree [".. xbr:interface:: I", "        x"] (rootNodeAt 0) =
      .error "Indentation too deep: \"        x\" [level=3, whitespace=8, line_no=2]" :=
  ⟨xbr_c7_too_deep _ "        x" 1 [0] rfl (by decide) (by decide) (by decide),
   by rfl⟩

/-- C8: constructing an `XBRIDLNode` with a non-None parent raises exactly
when the parent's level is not `level - 1` (extract.py lines 78-81), and
constructing one with no parent always succeeds and yields a node that is its
own parent (`self.parent = parent or self`). -/
theorem xbr_c8_init_check (arena : List XBRIDLNode)
    (level start_line line_no : Nat) (line : Option String) (p : Nat)
    (_hp : p < arena.length) :
    ((∃ e, XBRIDLNode.init arena level (some p) start_line line_no line = .error e) ↔
        ((arena.getD p default).level : Int) ≠ (level : Int) - 1) ∧
    (∃ arena2 idx,
        XBRIDLNode.init arena level none start_line line_no line = .ok (arena2, idx) ∧
        (arena2.getD idx default).parent = idx ∧
        (arena2.getD idx default).level = level) := by
  constructor
  · constructor
    · rintro ⟨e, he⟩
      by_contra hlev
      simp only [XBRIDLNode.init] at he
      rw [if_neg (not_ne_iff.mpr hlev)] at he
      exact absurd he (by simp)
    · intro hlev
      exact ⟨_, by simp only [XBRIDLNode.init]; rw [if_pos hlev]⟩
  · refine ⟨_, _, rfl, ?_, ?_⟩
    · rw [getD_append_self]
    · rw [getD_append_self]

/-- Witness for C8 on a concrete arena holding one level-0 root: a level-1
node with the root as parent is accepted (the failure iff is demonstrated
with a false right-hand side), and a parentless construction succeeds and is
self-parented. -/
theorem xbr_c8_init_check_witness :
    ((∃ e, XBRIDLNode.init [rootNodeAt 0] 1 (some 0) 0 1 (some "x") = .error e) ↔
        (([rootNodeAt 0].getD 0 default).level : Int) ≠ (1 : Int) - 1) ∧
    (∃ arena2 idx,
        XBRIDLNode.init [rootNodeAt 0] 1 none 0 1 (some "x") = .ok (arena2, idx) ∧
        (arena2.getD idx default).parent = idx ∧
        (arena2.getD idx default).level = 1) :=
  xbr_c8_init_check [rootNodeAt 0] 1 0 1 (some "x") 0 (by decide)

/-- C10: the node list a successful `_parse_tree` run returns starts with the
implicit root: `nodes = [root]` before the loop (extract.py line 101) and the
loop only appends, so in the `_extract_from_block` result the first index is
the root node, which has level 0 and a None raw `line`. -/
theorem xbr_c10_root_first (blockLines : List String) (start_line : Nat)
    (arena : List XBRIDLNode) (idxs : List Nat)
    (h : _extract_from_block blockLines start_line = .ok (arena, idxs)) :
    idxs.head? = some 0 ∧
    (arena.getD 0 default).level = 0 ∧
    (arena.getD 0 default).line = none := by
  obtain ⟨h1, _, _, h4, h5⟩ := extract_block_inv h
  exact ⟨h1, h4, h5⟩

/-- Witness for C10 on the one-line block `.. xbr:interface:: I`. -/
theorem xbr_c10_root_first_witness :
    ([0, 1] : List Nat).head? = some 0 ∧
    (([⟨0, 0, 0, 0, none, [1]⟩,
       ⟨1, 0, 0, 1, some ".. xbr:interface:: I", []⟩] : List XBRIDLNode).getD 0
        default).level = 0 ∧
    (([⟨0, 0, 0, 0, none, [1]⟩,
       ⟨1, 0, 0, 1, some ".. xbr:interface:: I", []⟩] : List XBRIDLNode).getD 0
        default).line = none :=
  xbr_c10_root_first [".. xbr:interface:: I"] 0
    [⟨0, 0, 0, 0, none, [1]⟩, ⟨1, 0, 0, 1, some ".. xbr:interface:: I", []⟩]
    [0, 1] (by rfl)

/-- C4 (amended): the per-file value `_extract` computes is the single
flattened list of all blocks' nodes — `blocks.extend(block_nodes)` at
extract.py line 225 concatenates every block's node list into one flat list,
which equals the flattening of the spec's list of per-block node
collections. -/
theorem xbr_c4_flattened_value (lines : List String) :
    scanFileNodes lines = (perBlockLists lines).map List.flatten := by
  have h := foldlM_scan_perBlock lines (List.range lines.length) []
  simpa [scanFileNodes, perBlockLists] using h

/-- C4 counterexample: for a file with two one-directive blocks the claim
says the per-file value is the two-element list of per-block node
collections; the code instead maps the file to the flat four-element list of
all nodes of both blocks. -/
theorem xbr_c4_counterexample :
    ∃ ns, _extract
        [("f.rst", [".. xbr:interface:: A", "", ".. xbr:interface:: B"])] none =
        .ok [("f.rst", ns)] ∧
      ns.length = 4 ∧
      (perBlockLists [".. xbr:interface:: A", "", ".. xbr:interface:: B"]).map
          List.length = .ok 2 := by
  refine ⟨_, rfl, rfl, rfl⟩

/-- C6 (amended): a line opens a block exactly when it starts — at column 0,
with no leading whitespace — with the literal text `.. xbr:` (extract.py line
210); no trailing space or non-empty name is required.  Behaviorally: a
one-line file produces an empty scan result precisely when its line fails
that `startswith` test; a line passing it always yields either a parse error
or a non-empty node list. -/
theorem xbr_c6_startswith_introduces (l : String) :
    scanFileNodes [l] = .ok [] ↔ pyStartswith l ".. xbr:" = false := by
  have hfold : scanFileNodes [l] =
      (scanStep [l] [] 0 >>= fun b => Except.ok b) := rfl
  have hget : ([l] : List String).getD 0 "" = l := rfl
  by_cases hsw : pyStartswith l ".. xbr:" = true
  · cases hE : _extract_from_block (pyJoinSplit (blockAt [l] 0)) 0 with
    | error e =>
        have hv : scanFileNodes [l] = .error e := by
          rw [hfold, show scanStep [l] [] 0 = .error e from by
            unfold scanStep; rw [hget, hsw, hE]; rfl]
          rfl
        rw [hv]
        constructor
        · intro hc; exact absurd hc (by simp)
        · intro hc; exact absurd hsw (by simp [hc])
    | ok p =>
        obtain ⟨arena, idxs⟩ := p
        obtain ⟨_, hne, _, _, _⟩ := extract_block_inv hE
        have hrec : idxs.map (fun k => arena.getD k default) ≠ [] := by
          simpa [List.map_eq_nil_iff] using hne
        have hv : scanFileNodes [l] =
            .ok (idxs.map (fun k => arena.getD k default)) := by
          rw [hfold, show scanStep [l] [] 0 =
                .ok (idxs.map (fun k => arena.getD k default)) from by
            unfold scanStep; rw [hget, hsw, hE]; simp [hrec]]
          rfl
        rw [hv]
        constructor
        · intro hc
          injection hc with hc'
          exact absurd hc' hrec
        · intro hc; exact absurd hsw (by simp [hc])
  · have h0 : pyStartswith l ".. xbr:" = false := by simpa using hsw
    have hv : scanFileNodes [l] = .ok [] := by
      rw [hfold, show scanStep [l] [] 0 = .ok [] from by
        unfold scanStep; rw [hget, h0]; simp]
      rfl
    rw [hv]
    simp [h0]

/-- C6 counterexample: the line `    .. xbr:interface:: X` matches the spec's
introduction pattern (optional leading whitespace, marker, space, non-empty
name), yet the scanner — whose test is `lines[i].startswith('.. xbr:')` —
opens no block for it: leading whitespace defeats `startswith`, and the file
consisting of that single line yields an empty node list. -/
theorem xbr_c6_counterexample :
    introducesBlockSpec "    .. xbr:interface:: X" = true ∧
    pyStartswith "    .. xbr:interface:: X" ".. xbr:" = false ∧
    scanFileNodes ["    .. xbr:interface:: X"] = .ok [] :=
  ⟨rfl, rfl, rfl⟩

/-- A file none of whose lines starts with `.. xbr:` is scanned without
error: the whole loop leaves `blocks` empty. -/
lemma scanFileNodes_no_marker (ls : List String)
    (h : ∀ l ∈ ls, pyStartswith l ".. xbr:" = false) :
    scanFileNodes ls = .ok [] := by
  unfold scanFileNodes
  apply foldlM_scanStep_no_marker
  intro i hi
  have hlen : i < ls.length := List.mem_range.mp hi
  have hmem : ls.getD i "" ∈ ls := by
    rw [List.getD_eq_getElem _ _ hlen]
    exact List.getElem_mem hlen
  exact h _ hmem

lemma fileBlocks_empty {fp : Option (List String)} {fn : String}
    {flines : List String} (h : scanFileNodes flines = .ok []) :
    fileBlocks fp fn flines = .ok [] := by
  cases fp with
  | none => exact h
  | some fps =>
      show (if fn ∈ fps then scanFileNodes flines else .ok []) = .ok []
      by_cases hmem : fn ∈ fps
      · rw [if_pos hmem]; exact h
      · rw [if_neg hmem]

/-- If every file named `fn` in the walk scans to an empty block list, then
`fn` is absent from any successful `_extract` result. -/
lemma extract_absent (files : List (String × List String)) :
    ∀ (fp : Option (List String)) (fn : String),
      (∀ ls, (fn, ls) ∈ files → scanFileNodes ls = .ok []) →
      ∀ res, _extract files fp = .ok res → ∀ v, (fn, v) ∉ res := by
  induction files with
  | nil =>
      intro fp fn _ res hres v
      injection hres with h'
      subst h'
      simp
  | cons g rest ih =>
      obtain ⟨gn, gls⟩ := g
      intro fp fn hscan res hres v hvmem
      unfold _extract at hres
      split at hres
      · by_cases hgn : gn = fn
        · subst hgn
          rw [fileBlocks_empty (hscan gls (by simp))] at hres
          dsimp only at hres
          cases hrec : _extract rest fp with
          | error e => rw [hrec] at hres; exact absurd hres (by simp)
          | ok fb =>
              rw [hrec] at hres
              injection hres with h'
              have hres' : res = fb := by rw [← h']; simp
              exact ih fp gn (fun ls hls => hscan ls (by simp [hls])) fb hrec v
                (hres' ▸ hvmem)
        · cases hfb : fileBlocks fp gn gls with
          | error e => rw [hfb] at hres; exact absurd hres (by simp)
          | ok blocks =>
              rw [hfb] at hres
              dsimp only at hres
              cases hrec : _extract rest fp with
              | error e => rw [hrec] at hres; exact absurd hres (by simp)
              | ok fb =>
                  rw [hrec] at hres
                  injection hres with h'
                  have hmem' : (fn, v) ∈ (if blocks ≠ [] then (gn, blocks) :: fb else fb) := by
                    rw [h']; exact hvmem
                  have hfn : (fn, v) ∈ fb := by
                    by_cases hb : blocks ≠ []
                    · rw [if_pos hb] at hmem'
                      rcases List.mem_cons.mp hmem' with hh | ht
                      · exact absurd (congrArg Prod.fst hh).symm hgn
                      · exact ht
                    · rw [if_neg hb] at hmem'
                      exact hmem'
                  exact ih fp fn (fun ls hls => hscan ls (by simp [hls])) fb hrec v hfn
      · cases hrec : _extract rest fp with
        | error e => rw [hrec] at hres; exact absurd hres (by simp)
        | ok fb =>
            rw [hrec] at hres
            injection hres with h'
            exact ih fp fn (fun ls hls => hscan ls (by simp [hls])) fb hrec v
              (h' ▸ hvmem)

/-- C9: a file containing no line that opens a block (no line starting with
`.. xbr:`) is scanned without raising, yields the empty block list, and — by
`if blocks: fileblocks[fn] = blocks` at extract.py lines 227-228 — its path
is absent from the result mapping of any successful walk. -/
theorem xbr_c9_markerless_file_absent (files : List (String × List String))
    (fp : Option (List String)) (fn : String)
    (hm : ∀ ls, (fn, ls) ∈ files → ∀ l ∈ ls, pyStartswith l ".. xbr:" = false) :
    (∀ ls, (fn, ls) ∈ files → scanFileNodes ls = .ok []) ∧
    (∀ res, _extract files fp = .ok res → ∀ v, (fn, v) ∉ res) := by
  have hscan : ∀ ls, (fn, ls) ∈ files → scanFileNodes ls = .ok [] :=
    fun ls hls => scanFileNodes_no_marker ls (hm ls hls)
  exact ⟨hscan, extract_absent files fp fn hscan⟩

/-- Witness for C9: a one-file walk whose only `.rst` file has no directive
line produces an empty mapping and no error. -/
theorem xbr_c9_markerless_file_absent_witness :
    (∀ ls, (("a.rst", ls) : String × List String) ∈
        [(("a.rst" : String), (["hello", "  indented"] : List String))] →
      scanFileNodes ls = .ok []) ∧
    (∀ res, _extract [("a.rst", ["hello", "  indented"])] none = .ok res →
      ∀ v, ("a.rst", v) ∉ res) :=
  xbr_c9_markerless_file_absent [("a.rst", ["hello", "  indented"])] none "a.rst"
    (by
      intro ls hls l hl
      simp only [List.mem_singleton, Prod.mk.injEq, true_and] at hls
      subst hls
      fin_cases hl <;> rfl)

/-- C1: the claim says that for the block `["root", "    a", "        b",
"    c"]` the builder attaches node("c") at level 2 as a sibling of "a" under
the parent of "a".  The code diverges: in the level-decrease branch
(extract.py lines 156-167) the node for "c" is constructed with
`stack[-1].level` (= 3, the level of "b") instead of the computed level 2,
its parent is node("a") (arena index 2) instead of the parent of "a", and the
`children.append` call is commented out, so "c" appears in no children list
at all.  This theorem evaluates the code at the claim's own input. -/
theorem xbr_c1_scenarioA_divergence :
    ∃ r, _parse_tree ["root", "    a", "        b", "    c"] (rootNodeAt 0) = .ok r ∧
      r.2 = [0, 1, 2, 3, 4] ∧
      (r.1.getD 4 default).line = some "    c" ∧
      (r.1.getD 4 default).level = 3 ∧
      (r.1.getD 4 default).parent = 2 ∧
      (r.1.getD 2 default).line = some "    a" ∧
      (r.1.getD 2 default).level = 2 ∧
      (r.1.getD 1 default).line = some "root" ∧
      (r.1.getD 1 default).children = [2] ∧
      r.1.all (fun n => !(n.children.contains 4)) = true := by
  refine ⟨_, rfl, ?_, ?_, ?_, ?_, ?_, ?_, ?_, ?_, ?_⟩ <;> rfl

/-- C2: the claim says a same-level line creates a node with
`parent = stack_top.parent` and appends it to that parent's children list.
The code (extract.py lines 145-154) does set `parent = stack[-1].parent`, but
appends the new node to `stack[-1].children` — the children list of the
previous same-level sibling, not of the parent.  Evaluated on the block
`[".. xbr:interface:: I", "    a", "    b"]`: the node for "    b" (index 3)
has parent index 1 (the directive node) yet sits in the children list of the
node for "    a" (index 2), and not in its parent's children list. -/
theorem xbr_c2_sibling_append_divergence :
    ∃ r, _parse_tree [".. xbr:interface:: I", "    a", "    b"] (rootNodeAt 0) = .ok r ∧
      r.2 = [0, 1, 2, 3] ∧
      (r.1.getD 3 default).line = some "    b" ∧
      (r.1.getD 3 default).level = 2 ∧
      (r.1.getD 3 default).parent = 1 ∧
      (r.1.getD 2 default).line = some "    a" ∧
      (r.1.getD 2 default).children = [3] ∧
      (r.1.getD 1 default).children = [2] ∧
      ((r.1.getD 1 default).children.contains 3) = false := by
  refine ⟨_, rfl, ?_, ?_, ?_, ?_, ?_, ?_, ?_, ?_⟩ <;> rfl

/-- C3: the claim says every successfully built block yields a fully
connected tree — every non-root node in the returned list appears in its
parent's children list.  The code violates this whenever the level-decrease
branch runs, because its `children.append` is commented out (extract.py line
164): for the block `[".. xbr:interface:: I", "    a", "        b", "    c"]`
the node for "    c" (index 4) is in the returned node list, is not the root,
has parent index 2, but appears in no children list — in particular not in
its parent's — so it is unreachable from the root via children links. -/
theorem xbr_c3_connectivity_divergence :
    ∃ r, _parse_tree [".. xbr:interface:: I", "    a", "        b", "    c"]
        (rootNodeAt 0) = .ok r ∧
      r.2 = [0, 1, 2, 3, 4] ∧
      (r.1.getD 4 default).line = some "    c" ∧
      (r.1.getD 4 default).parent = 2 ∧
      ((r.1.getD 2 default).children.contains 4) = false ∧
      r.1.all (fun n => !(n.children.contains 4)) = true := by
  refine ⟨_, rfl, ?_, ?_, ?_, ?_, ?_⟩ <;> rfl

/-- C5: the claim says a non-multiple-of-4 indentation fails with a
malformed-indentation error citing the offending line number.  The code does
take the malformed-indentation branch (extract.py lines 117-120), but its
format string mixes the manual field "\x7b0\x7d" with the automatic field "\x7b\x7d", so
CPython's `str.format` itself raises ValueError("cannot switch from manual
field specification to automatic field numbering") before the intended
message is ever built: the propagated error cites neither the line text nor
the line number. -/
theorem xbr_c5_indent_error_message (st : ParseState) (line : String)
    (hne : pyNonBlank line = true)
    (hmod : leadingSpaces line % 4 ≠ 0) :
    parseLine st line =
      .error "cannot switch from manual field specification to automatic field numbering" := by
  unfold parseLine
  dsimp only
  rw [if_pos hne, if_pos hmod]
  rfl

/-- Witness for C5 at the concrete line "   x" (3 leading spaces) as the
first body line of a block. -/
theorem xbr_c5_indent_error_message_witness :
    parseLine ⟨[rootNodeAt 0], [0], [0], 0, 0⟩ "   x" =
      .error "cannot switch from manual field specification to automatic field numbering" :=
  xbr_c5_indent_error_message ⟨[rootNodeAt 0], [0], [0], 0, 0⟩ "   x"
    (by decide) (by decide)
